import Mathlib

set_option maxHeartbeats 1600000

/-!
Shallow embedding of the grade-aggregation, save and delete logic of
`avaliacao.py` (repository avaliacao-qualitativa), together with proofs of
the specified properties.

Modelling conventions:
* A stored grade row (sheet `Notas`) is a `GradeEntry`.  After `load_notas`
  has run `pd.to_numeric(..., errors='coerce')` on the `Nota` column, an
  unparseable score is `NaN`; we model the column as `Option ℚ`, with `none`
  standing for `NaN` (Python floats are idealized as rationals).
* `Timestamp` holds `datetime.now().isoformat()` strings, whose lexicographic
  order agrees with chronological order; we model them as naturals.
* `df.sort_values('Timestamp')` is modelled by a stable merge sort on the
  timestamp key (pandas' default quicksort is deterministic but not
  documented stable; only tie order on equal timestamps can differ).
* `groupby('Disciplina', as_index=False).last()` takes, per subject group,
  the LAST NON-NULL value of each column; for the `Nota` column this is
  `(group.filterMap nota).getLast?`.
-/

namespace Avaliacao

/-- One stored grade row of the `Notas` sheet, after loading: `nota` is the
numeric score, `none` when the stored text could not be parsed (pandas `NaN`). -/
structure GradeEntry where
  trimestre : String
  disciplina : String
  turma : String
  aluno : String
  nota : Option ℚ
  timestamp : ℕ
deriving DecidableEq, Repr

/-- One row of the `Alunos` reference sheet. -/
structure Student where
  turma : String
  aluno : String
deriving DecidableEq, Repr

/-- One row of a report produced by the class / school report handlers
(the dicts appended to `medias` / `resultados`). -/
structure Average where
  trimestre : String
  turma : String
  aluno : String
  media : Option ℚ
  lancamentos : ℕ
deriving DecidableEq, Repr

/-- Comparison used by `df_al.sort_values('Timestamp')`. -/
def tsLe (a b : GradeEntry) : Bool := decide (a.timestamp ≤ b.timestamp)

/-- The row filter of line 199: entries of this student and term. -/
def matchesStudent (aluno trimestre : String) (e : GradeEntry) : Bool :=
  e.aluno == aluno && e.trimestre == trimestre

/-- The `Nota` value that `groupby('Disciplina', as_index=False).last()`
keeps for the subject `d` of a (timestamp-sorted) list of rows: the last
non-null entry of the column within the group. -/
def latestNota (sortedRows : List GradeEntry) (d : String) : Option ℚ :=
  ((sortedRows.filter (fun e => e.disciplina == d)).filterMap (fun e => e.nota)).getLast?

/-- The per-student aggregation inlined in the class and school report
handlers (lines 199-210 and 232-243 of `avaliacao.py`):

    df_al = notas[(notas['Aluno'] == aluno) & (notas['Trimestre'] == trimestre)]
    if df_al.empty: (None, 0)
    latest = df_al.sort_values('Timestamp').groupby('Disciplina', as_index=False).last()
    notas = pd.to_numeric(latest['Nota'], errors='coerce').dropna().tolist()
    if notas: (sum(notas)/len(notas), len(notas)) else (None, 0)

`groupby(...).last()` keeps, per subject, the last non-null `Nota` of the
timestamp-sorted group; subjects where every `Nota` is null are dropped by
`dropna`.  The returned mean is the full-precision value; rounding to one
decimal happens in the report rows (`mkAverage`). -/
def compute_student_average (notas : List GradeEntry) (aluno trimestre : String) :
    Option ℚ × ℕ :=
  let df_al := notas.filter (matchesStudent aluno trimestre)
  if df_al.isEmpty then (none, 0)
  else
    let sortedRows := df_al.mergeSort tsLe
    let ds := (sortedRows.map (fun e => e.disciplina)).dedup
    let vals := ds.filterMap (latestNota sortedRows)
    if vals.isEmpty then (none, 0)
    else (some (vals.sum / (vals.length : ℚ)), vals.length)

/-- Base letter of a precomposed accented Latin letter.  Model of one
character's journey through `unicodedata.normalize('NFKD', ·)` followed by
removal of combining marks (`remover_acentos`, lines 34-39), restricted to
the accented Latin letters of Latin-1 / Latin Extended-A that occur in
Portuguese names; every other character decomposes to itself. -/
def stripAccent (c : Char) : Char :=
  match c with
  | 'á' | 'à' | 'â' | 'ã' | 'ä' | 'å' => 'a'
  | 'é' | 'è' | 'ê' | 'ë' => 'e'
  | 'í' | 'ì' | 'î' | 'ï' => 'i'
  | 'ó' | 'ò' | 'ô' | 'õ' | 'ö' => 'o'
  | 'ú' | 'ù' | 'û' | 'ü' => 'u'
  | 'ç' => 'c'
  | 'ñ' => 'n'
  | 'ý' | 'ÿ' => 'y'
  | 'Á' | 'À' | 'Â' | 'Ã' | 'Ä' | 'Å' => 'A'
  | 'É' | 'È' | 'Ê' | 'Ë' => 'E'
  | 'Í' | 'Ì' | 'Î' | 'Ï' => 'I'
  | 'Ó' | 'Ò' | 'Ô' | 'Õ' | 'Ö' => 'O'
  | 'Ú' | 'Ù' | 'Û' | 'Ü' => 'U'
  | 'Ç' => 'C'
  | 'Ñ' => 'N'
  | 'Ý' => 'Y'
  | c => c

/-- Accent-stripping normalization used as the sort key for student names
(`remover_acentos`, lines 34-39). -/
def remover_acentos (texto : String) : String := ⟨texto.data.map stripAccent⟩

/-- Round to the nearest integer, ties to even, as Python's `round` does
(floats idealized as rationals). -/
def roundHalfEven (q : ℚ) : ℤ :=
  let f := ⌊q⌋
  if q - f < 1/2 then f
  else if (1:ℚ)/2 < q - f then f + 1
  else if 2 ∣ f then f else f + 1

/-- Python's `round(x, 1)` on the mean, used when building report rows. -/
def round1 (q : ℚ) : ℚ := (roundHalfEven (10 * q) : ℚ) / 10

/-- One report row for a student: the dict appended at lines 201, 208, 210
(and 234, 241, 243): mean rounded to one decimal, count of contributing
subjects. -/
def mkAverage (notas : List GradeEntry) (trimestre turma aluno : String) : Average :=
  let r := compute_student_average notas aluno trimestre
  ⟨trimestre, turma, aluno, r.1.map round1, r.2⟩

/-- Comparison of student names by accent-stripped key, as in
`sorted(alunos_list, key=remover_acentos)` (line 198). -/
def nameLe (a b : String) : Bool := decide (remover_acentos a ≤ remover_acentos b)

/-- The class report handler (`col_b`, lines 192-214): students of the chosen
class, sorted by accent-stripped name (Python's `sorted` is stable, as is our
merge sort), one `Average` row each. -/
def compute_class_report (notas : List GradeEntry) (roster : List Student)
    (trimestre turma : String) : List Average :=
  let alunos_list := (roster.filter (fun st => st.turma == turma)).map (fun st => st.aluno)
  (alunos_list.mergeSort nameLe).map (fun aluno => mkAverage notas trimestre turma aluno)

/-- Comparison used by `df_result.sort_values(by=["Turma", "Aluno_sort"])`
(line 249): primary key the class string, secondary key the accent-stripped
student name. -/
def schoolLe (a b : Average) : Bool :=
  decide (a.turma < b.turma ∨ (a.turma = b.turma ∧ remover_acentos a.aluno ≤ remover_acentos b.aluno))

/-- The school report handler (`col_c`, lines 223-249): one `Average` row per
roster row (each student with its own class), then sorted by (class,
accent-stripped name). -/
def compute_school_report (notas : List GradeEntry) (roster : List Student)
    (trimestre : String) : List Average :=
  let resultados := roster.map (fun st => mkAverage notas trimestre st.turma st.aluno)
  resultados.mergeSort schoolLe

/-- One row of the edited grid handed back by the data editor: the student
name and the content of the `Nota` cell; a cleared cell is `none` and is
removed by `dropna(subset=['Nota'])` (line 154). -/
structure EditedRow where
  aluno : String
  nota : Option String
deriving DecidableEq, Repr

/-- The comma-to-dot normalization `str(row["Nota"]).replace(',', '.')`
(line 159); the replaced pattern is a single character, so a character map
is equivalent. -/
def normalizeComma (s : String) : String :=
  ⟨s.data.map (fun c => if c = ',' then '.' else c)⟩

/-- Numeric value of a digit string. -/
def digitsVal (ds : List Char) : ℕ := ds.foldl (fun n c => 10 * n + (c.toNat - 48)) 0

/-- Model of Python's `float(·)` (line 160) on plain signed decimal literals:
an optional sign, then digits with at most one decimal point and at least one
digit.  Exponent forms, `inf`/`nan` words, underscores and surrounding
whitespace are outside the model (`nan`, the editor's text for an untouched
empty cell, parses in Python but always fails the range test, so it is
rejected there exactly as `none` is rejected here). -/
def parseFloat (s : String) : Option ℚ :=
  let cs := s.toList
  let body : List Char → Option ℚ := fun l =>
    let intPart := l.takeWhile Char.isDigit
    let rest := l.dropWhile Char.isDigit
    match rest with
    | [] => if intPart.isEmpty then none else some (digitsVal intPart)
    | '.' :: frac =>
      if frac.all Char.isDigit && !(intPart.isEmpty && frac.isEmpty) then
        some ((digitsVal intPart : ℚ) + (digitsVal frac : ℚ) / 10 ^ frac.length)
      else none
    | _ => none
  match cs with
  | '-' :: l => (body l).map (fun q => -q)
  | '+' :: l => body l
  | l => body l

/-- Outcome of processing one non-dropped row of the submitted grid
(lines 156-172). -/
inductive RowResult where
  | saved (e : GradeEntry)
  | outOfRange (nota : ℚ) (aluno : String)
  | notANumber (aluno : String)
deriving DecidableEq, Repr

/-- Processing of one row of the submitted grid (lines 157-172): normalize
the comma, parse as float, range-check into [0, 10]; failures emit the
warning naming the student (and, for the range failure, the parsed value). -/
def processRow (trimestre disciplina turma : String) (now : ℕ)
    (aluno notaStr : String) : RowResult :=
  match parseFloat (normalizeComma notaStr) with
  | some nota_final =>
    if 0 ≤ nota_final ∧ nota_final ≤ 10 then
      .saved ⟨trimestre, disciplina, turma, aluno, some nota_final, now⟩
    else .outOfRange nota_final aluno
  | none => .notANumber aluno

/-- The rows of the edited grid that survive `dropna(subset=['Nota'])`
(line 154), as (student, raw score text) pairs. -/
def notasInseridas (edited : List EditedRow) : List (String × String) :=
  edited.filterMap (fun r => r.nota.map (fun s => (r.aluno, s)))

/-- The `rows_to_save` list built by the loop at lines 156-172: the entries of
the batch that passed validation, in grid order.  All rows of one submission
share the same `datetime.now()` instant, modelled by the single `now`. -/
def rowsToSave (trimestre disciplina turma : String) (now : ℕ)
    (edited : List EditedRow) : List GradeEntry :=
  (notasInseridas edited).filterMap (fun p =>
    match processRow trimestre disciplina turma now p.1 p.2 with
    | .saved e => some e
    | _ => none)

/-- The warnings emitted by the loop at lines 156-172, in grid order. -/
def saveWarnings (trimestre disciplina turma : String) (now : ℕ)
    (edited : List EditedRow) : List RowResult :=
  (notasInseridas edited).filterMap (fun p =>
    match processRow trimestre disciplina turma now p.1 p.2 with
    | .saved _ => none
    | r => some r)

/-- Membership of a stored entry in the selected (term, subject, class)
tuple; the conjunction used in the masks at lines 178-182 and 267-271. -/
def matchesTuple (trimestre disciplina turma : String) (e : GradeEntry) : Bool :=
  e.trimestre == trimestre && e.disciplina == disciplina && e.turma == turma

/-- The save handler (lines 152-190): when at least one row validated, keep
the stored entries outside the selected tuple and append the new batch
(`pd.concat([df_mantido, new_df])`); when none validated (`if rows_to_save:`
is false) nothing is written. -/
def saveHandler (notas : List GradeEntry) (trimestre disciplina turma : String)
    (now : ℕ) (edited : List EditedRow) : List GradeEntry :=
  let rows := rowsToSave trimestre disciplina turma now edited
  if rows.isEmpty then notas
  else notas.filter (fun e => !(matchesTuple trimestre disciplina turma e)) ++ rows

/-- The delete handler (`col_d`, lines 261-277): drop every stored entry of
the selected (term, subject, class) tuple. -/
def deleteHandler (notas : List GradeEntry) (trimestre disciplina turma : String) :
    List GradeEntry :=
  notas.filter (fun e => !(matchesTuple trimestre disciplina turma e))

/-- Aggregation rule as the specification words it (for comparison with the
code's `compute_student_average`): one score per distinct subject, namely THE
score of the entry with the latest timestamp in that subject; a selected
score that is not a valid number is dropped from both the numerator and the
denominator. -/
def claimed_student_average (notas : List GradeEntry) (aluno trimestre : String) :
    Option ℚ × ℕ :=
  let flt := notas.filter (matchesStudent aluno trimestre)
  let ds := (flt.map (fun e => e.disciplina)).dedup
  let vals := ds.filterMap (fun d =>
    (((flt.filter (fun e => e.disciplina == d)).mergeSort tsLe).getLast?).bind
      (fun e => e.nota))
  if vals.isEmpty then (none, 0)
  else (some (vals.sum / (vals.length : ℚ)), vals.length)

/-- Entries of the specification's worked example: subject A has scores 5 and
then 8 (latest), subject B has the single score 7. -/
def exEntries : List GradeEntry :=
  [⟨"1º Trimestre", "A", "5A", "X", some 5, 1⟩,
   ⟨"1º Trimestre", "A", "5A", "X", some 8, 2⟩,
   ⟨"1º Trimestre", "B", "5A", "X", some 7, 3⟩]

/-- A store whose latest entry for subject A carries an unparseable score
(`NaN` after loading) while an earlier entry carries the valid score 5. -/
def exStale : List GradeEntry :=
  [⟨"1º Trimestre", "A", "5A", "X", some 5, 1⟩,
   ⟨"1º Trimestre", "A", "5A", "X", none, 2⟩]

/-- A second store of the same shape (valid 9 at time 10, unparseable score
at time 20). -/
def exStale2 : List GradeEntry :=
  [⟨"1º Trimestre", "M", "5A", "Y", some 9, 10⟩,
   ⟨"1º Trimestre", "M", "5A", "Y", none, 20⟩]

/-! ### Helper lemmas about the timestamp sort and the per-subject selection -/

lemma tsLe_trans (a b c : GradeEntry) (h1 : tsLe a b = true) (h2 : tsLe b c = true) :
    tsLe a c = true := by
  simp only [tsLe, decide_eq_true_eq] at *
  exact le_trans h1 h2

lemma tsLe_total (a b : GradeEntry) : (tsLe a b || tsLe b a) = true := by
  simp only [tsLe, Bool.or_eq_true, decide_eq_true_eq]
  exact le_total _ _

lemma pairwise_mergeSort_tsLe (l : List GradeEntry) :
    List.Pairwise (fun a b => a.timestamp ≤ b.timestamp) (l.mergeSort tsLe) := by
  have h := List.sorted_mergeSort tsLe_trans tsLe_total l
  exact h.imp (fun hab => by simpa [tsLe] using hab)

lemma head_filterMap_nota_max (h : List GradeEntry)
    (hp : List.Pairwise (fun a b => b.timestamp ≤ a.timestamp) h) (q : ℚ)
    (hq : (h.filterMap (fun e => e.nota)).head? = some q) :
    ∃ e ∈ h, e.nota = some q ∧
      ∀ e' ∈ h, (e'.nota).isSome → e'.timestamp ≤ e.timestamp := by
  induction h with
  | nil => simp at hq
  | cons a t ih =>
    rcases List.pairwise_cons.mp hp with ⟨ha, ht⟩
    cases hn : a.nota with
    | some q0 =>
      refine ⟨a, List.mem_cons_self _ _, ?_, ?_⟩
      · rw [hn]
        simpa [List.filterMap_cons, hn] using hq
      · intro e' he' _
        rcases List.mem_cons.mp he' with rfl | hmem
        · exact le_refl _
        · exact ha e' hmem
    | none =>
      rcases ih ht (by simpa [List.filterMap_cons, hn] using hq) with ⟨e, hmem, he, hmax⟩
      refine ⟨e, List.mem_cons_of_mem _ hmem, he, ?_⟩
      intro e' he' hs
      rcases List.mem_cons.mp he' with rfl | hmem'
      · simp [hn] at hs
      · exact hmax e' hmem' hs

lemma getLast_filterMap_nota_max (g : List GradeEntry)
    (hp : List.Pairwise (fun a b => a.timestamp ≤ b.timestamp) g) (q : ℚ)
    (hq : (g.filterMap (fun e => e.nota)).getLast? = some q) :
    ∃ e ∈ g, e.nota = some q ∧
      ∀ e' ∈ g, (e'.nota).isSome → e'.timestamp ≤ e.timestamp := by
  rw [List.getLast?_eq_head?_reverse, ← List.filterMap_reverse] at hq
  have hp' : List.Pairwise (fun a b => b.timestamp ≤ a.timestamp) g.reverse :=
    List.pairwise_reverse.mpr hp
  rcases head_filterMap_nota_max g.reverse hp' q hq with ⟨e, hmem, he, hmax⟩
  exact ⟨e, List.mem_reverse.mp hmem, he,
    fun e' he' hs => hmax e' (List.mem_reverse.mpr he') hs⟩

/-- The selected score of a subject group of the timestamp-sorted rows comes
from an entry of the group with a valid score and maximal timestamp among the
group's valid-score entries. -/
lemma latestNota_max (flt : List GradeEntry) (d : String) (q : ℚ)
    (h : latestNota (flt.mergeSort tsLe) d = some q) :
    ∃ e, e ∈ flt ∧ e.disciplina = d ∧ e.nota = some q ∧
      ∀ e' ∈ flt, e'.disciplina = d → (e'.nota).isSome →
        e'.timestamp ≤ e.timestamp := by
  unfold latestNota at h
  set g := (flt.mergeSort tsLe).filter (fun e => e.disciplina == d) with hg
  have hpg : List.Pairwise (fun a b => a.timestamp ≤ b.timestamp) g :=
    (pairwise_mergeSort_tsLe flt).sublist (List.filter_sublist _)
  rcases getLast_filterMap_nota_max g hpg q h with ⟨e, hmem, he, hmax⟩
  have hmem' : e ∈ flt.mergeSort tsLe ∧ e.disciplina == d := by
    simpa using List.mem_filter.mp hmem
  refine ⟨e, (List.mergeSort_perm flt tsLe).mem_iff.mp hmem'.1, by simpa using hmem'.2,
    he, ?_⟩
  intro e' he' hd hs
  have he'g : e' ∈ g := by
    rw [hg]
    exact List.mem_filter.mpr ⟨(List.mergeSort_perm flt tsLe).mem_iff.mpr he', by simp [hd]⟩
  exact hmax e' he'g hs

lemma latestNota_eq_none_iff (rows : List GradeEntry) (d : String) :
    latestNota rows d = none ↔ ∀ e ∈ rows, e.disciplina = d → e.nota = none := by
  unfold latestNota
  rw [List.getLast?_eq_none_iff, List.filterMap_eq_nil_iff]
  constructor
  · intro h e he hd
    exact h e (List.mem_filter.mpr ⟨he, by simp [hd]⟩)
  · intro h e he
    rcases List.mem_filter.mp he with ⟨hmem, hd⟩
    exact h e hmem (by simpa using hd)

lemma forall2_filter_filterMap {α β : Type} (f : α → Option β) (R : α → β → Prop)
    (hf : ∀ a q, f a = some q → R a q) :
    ∀ L : List α, List.Forall₂ R (L.filter (fun a => (f a).isSome)) (L.filterMap f)
  | [] => List.Forall₂.nil
  | a :: t => by
    cases hfa : f a with
    | none => simpa [List.filterMap_cons, hfa] using forall2_filter_filterMap f R hf t
    | some q =>
      simpa [List.filterMap_cons, hfa] using
        List.Forall₂.cons (hf a q hfa) (forall2_filter_filterMap f R hf t)

/-- Structure of the aggregation result: there is a duplicate-free list `ds`
of exactly the subjects having at least one valid-score entry for the
student and term, and a parallel list `sel` of selected scores, each the
score of a maximal-timestamp valid entry of its subject; the count is the
length of `ds` and the mean is the average of `sel` (absent when `ds` is
empty). -/
lemma student_average_spec (notas : List GradeEntry) (aluno trimestre : String) :
    ∃ ds sel, ds.Nodup ∧
      (∀ d, d ∈ ds ↔ ∃ e ∈ notas.filter (matchesStudent aluno trimestre),
        e.disciplina = d ∧ (e.nota).isSome = true) ∧
      List.Forall₂ (fun d q => ∃ e, e ∈ notas.filter (matchesStudent aluno trimestre) ∧
        e.disciplina = d ∧ e.nota = some q ∧
        ∀ e' ∈ notas.filter (matchesStudent aluno trimestre), e'.disciplina = d →
          (e'.nota).isSome = true → e'.timestamp ≤ e.timestamp) ds sel ∧
      (compute_student_average notas aluno trimestre).2 = ds.length ∧
      (ds = [] → (compute_student_average notas aluno trimestre).1 = none) ∧
      (ds ≠ [] → (compute_student_average notas aluno trimestre).1 =
        some (sel.sum / (sel.length : ℚ))) := by
  set flt := notas.filter (matchesStudent aluno trimestre) with hflt
  by_cases hE : flt.isEmpty
  · have hnil : flt = [] := List.isEmpty_iff.mp hE
    have hres : compute_student_average notas aluno trimestre = (none, 0) := by
      unfold compute_student_average
      rw [← hflt, if_pos hE]
    refine ⟨[], [], List.nodup_nil, ?_, List.Forall₂.nil, by simp [hres], by simp [hres],
      by simp⟩
    intro d
    simp [hnil]
  · set srt := flt.mergeSort tsLe with hsrt
    set vals := ((srt.map (fun e => e.disciplina)).dedup).filterMap (latestNota srt)
      with hvals
    have hres : compute_student_average notas aluno trimestre =
        if vals.isEmpty then (none, 0)
        else (some (vals.sum / (vals.length : ℚ)), vals.length) := by
      unfold compute_student_average
      rw [← hflt, if_neg hE]
    have hperm : srt.Perm flt := List.mergeSort_perm flt tsLe
    have hlen : (((srt.map (fun e => e.disciplina)).dedup).filter
        (fun d => (latestNota srt d).isSome)).length = vals.length :=
      (forall2_filter_filterMap (latestNota srt) (fun _ _ => True)
        (fun _ _ _ => trivial) _).length_eq
    refine ⟨((srt.map (fun e => e.disciplina)).dedup).filter
      (fun d => (latestNota srt d).isSome), vals, (List.nodup_dedup _).filter _,
      ?_, ?_, ?_, ?_, ?_⟩
    · intro d
      rw [List.mem_filter]
      constructor
      · rintro ⟨-, hsome⟩
        obtain ⟨q, hq⟩ := Option.isSome_iff_exists.mp hsome
        rcases latestNota_max flt d q (by exact hq) with ⟨e, hmem, hd, hnota, -⟩
        exact ⟨e, hmem, hd, by simp [hnota]⟩
      · rintro ⟨e, hmem, hd, hsome⟩
        constructor
        · rw [List.mem_dedup, List.mem_map]
          exact ⟨e, hperm.mem_iff.mpr hmem, hd⟩
        · by_contra hnone
          have hlat : latestNota srt d = none := by
            cases h : latestNota srt d with
            | none => rfl
            | some q => rw [h] at hnone; simp at hnone
          have := (latestNota_eq_none_iff srt d).mp hlat e (hperm.mem_iff.mpr hmem) hd
          rw [this] at hsome
          simp at hsome
    · rw [hvals]
      exact forall2_filter_filterMap (latestNota srt) _
        (fun d q hq => latestNota_max flt d q (by exact hq)) _
    · by_cases hv : vals.isEmpty
      · have hv' : vals = [] := List.isEmpty_iff.mp hv
        rw [hres, if_pos hv]
        rw [hv'] at hlen
        simp only [List.length_nil] at hlen
        simp [hlen]
      · rw [hres, if_neg hv]
        simpa using hlen.symm
    · intro hds
      rw [hds] at hlen
      have hv : vals.isEmpty := by
        rw [List.isEmpty_iff]
        exact List.length_eq_zero.mp (by simpa using hlen.symm)
      rw [hres, if_pos hv]
    · intro hds
      have hv : ¬ vals.isEmpty := by
        intro hv
        apply hds
        have hv' : vals = [] := List.isEmpty_iff.mp hv
        rw [hv'] at hlen
        exact List.length_eq_zero.mp (by simpa using hlen)
      rw [hres, if_neg hv]

lemma processRow_cases (t d tu : String) (now : ℕ) (aluno s : String) :
    (∃ q, parseFloat (normalizeComma s) = some q ∧ 0 ≤ q ∧ q ≤ 10 ∧
      processRow t d tu now aluno s = .saved ⟨t, d, tu, aluno, some q, now⟩) ∨
    (∃ q, parseFloat (normalizeComma s) = some q ∧ ¬(0 ≤ q ∧ q ≤ 10) ∧
      processRow t d tu now aluno s = .outOfRange q aluno) ∨
    (parseFloat (normalizeComma s) = none ∧
      processRow t d tu now aluno s = .notANumber aluno) := by
  rcases hpf : parseFloat (normalizeComma s) with _ | q
  · exact Or.inr (Or.inr ⟨rfl, by simp [processRow, hpf]⟩)
  · by_cases hr : 0 ≤ q ∧ q ≤ 10
    · exact Or.inl ⟨q, rfl, hr.1, hr.2, by simp [processRow, hpf, hr]⟩
    · exact Or.inr (Or.inl ⟨q, rfl, hr, by simp [processRow, hpf, hr]⟩)

lemma rowsToSave_matches (t d tu : String) (now : ℕ) (edited : List EditedRow) :
    ∀ e ∈ rowsToSave t d tu now edited, matchesTuple t d tu e = true := by
  intro e he
  rcases List.mem_filterMap.mp he with ⟨p, -, hp⟩
  rcases processRow_cases t d tu now p.1 p.2 with ⟨q, -, -, -, hpr⟩ | ⟨q, -, -, hpr⟩ |
    ⟨-, hpr⟩ <;> rw [hpr] at hp <;> simp at hp
  rw [← hp]
  simp [matchesTuple]

lemma rowsToSave_append (t d tu : String) (now : ℕ) (xs ys : List EditedRow) :
    rowsToSave t d tu now (xs ++ ys) =
      rowsToSave t d tu now xs ++ rowsToSave t d tu now ys := by
  simp [rowsToSave, notasInseridas, List.filterMap_append]

lemma rowsToSave_cons_invalid (t d tu : String) (now : ℕ) (al s : String)
    (post : List EditedRow) (h : ∀ e, processRow t d tu now al s ≠ .saved e) :
    rowsToSave t d tu now (⟨al, some s⟩ :: post) = rowsToSave t d tu now post := by
  rcases processRow_cases t d tu now al s with ⟨q, hpf, h0, h10, hpr⟩ |
    ⟨q, hpf, hr, hpr⟩ | ⟨hpf, hpr⟩
  · exact absurd hpr (h _)
  · simp [rowsToSave, notasInseridas, List.filterMap_cons, hpr]
  · simp [rowsToSave, notasInseridas, List.filterMap_cons, hpr]

lemma nameLe_trans (a b c : String) (h1 : nameLe a b = true) (h2 : nameLe b c = true) :
    nameLe a c = true := by
  simp only [nameLe, decide_eq_true_eq] at *
  exact le_trans h1 h2

lemma nameLe_total (a b : String) : (nameLe a b || nameLe b a) = true := by
  simp only [nameLe, Bool.or_eq_true, decide_eq_true_eq]
  exact le_total _ _

lemma schoolLe_trans (a b c : Average) (h1 : schoolLe a b = true)
    (h2 : schoolLe b c = true) : schoolLe a c = true := by
  simp only [schoolLe, decide_eq_true_eq] at *
  rcases h1 with h1 | ⟨h1e, h1k⟩
  · rcases h2 with h2 | ⟨h2e, h2k⟩
    · exact Or.inl (lt_trans h1 h2)
    · exact Or.inl (h2e ▸ h1)
  · rcases h2 with h2 | ⟨h2e, h2k⟩
    · exact Or.inl (h1e ▸ h2)
    · exact Or.inr ⟨h1e.trans h2e, le_trans h1k h2k⟩

lemma schoolLe_total (a b : Average) : (schoolLe a b || schoolLe b a) = true := by
  simp only [schoolLe, Bool.or_eq_true, decide_eq_true_eq]
  rcases lt_trichotomy a.turma b.turma with h | h | h
  · exact Or.inl (Or.inl h)
  · rcases le_total (remover_acentos a.aluno) (remover_acentos b.aluno) with hk | hk
    · exact Or.inl (Or.inr ⟨h, hk⟩)
    · exact Or.inr (Or.inr ⟨h.symm, hk⟩)
  · exact Or.inr (Or.inl h)

/-! ### Claim theorems -/

/-- C1 counterexample: the claimed rule (use the score of the entry with the
latest timestamp per subject; drop the subject when that score is
unparseable) disagrees with the code on `exStale`, where the latest entry of
subject A is unparseable but an earlier one holds 5: the claimed rule yields
(absent, 0), the code yields (5, 1), because `groupby(...).last()` takes the
last NON-NULL score of the group. -/
theorem C1_counterexample :
    claimed_student_average exStale "X" "1º Trimestre" = (none, 0) ∧
    compute_student_average exStale "X" "1º Trimestre" = (some 5, 1) := by
  constructor
  · simp [claimed_student_average, exStale, matchesStudent, List.mergeSort, List.merge,
      tsLe, List.dedup, List.filter, List.filterMap, List.getLast?]
  · simp [compute_student_average, exStale, matchesStudent, List.mergeSort, List.merge,
      tsLe, latestNota, List.dedup, List.filter, List.filterMap, List.getLast?]

/-- C1 (amended): for every student, term and set of grade entries,
`compute_student_average` returns count equal to the number of distinct
subjects having at least one entry with a valid (parseable) score, and mean
equal to the arithmetic mean of exactly one score per such subject — the
score of the entry with the latest timestamp among the subject's
valid-score entries (an unparseable latest score is skipped in favour of the
most recent valid one, not treated as zero); with no such subject the mean
is absent.  In particular, for subject A with entries 5 then 8 (latest) and
subject B with one entry 7, the result is mean 15/2 = 7.5 and count 2. -/
theorem C1_mean_of_latest_valid_scores :
    (∀ (notas : List GradeEntry) (aluno trimestre : String),
      ∃ ds sel, ds.Nodup ∧
        (∀ d, d ∈ ds ↔ ∃ e ∈ notas.filter (matchesStudent aluno trimestre),
          e.disciplina = d ∧ (e.nota).isSome = true) ∧
        List.Forall₂ (fun d q => ∃ e, e ∈ notas.filter (matchesStudent aluno trimestre) ∧
          e.disciplina = d ∧ e.nota = some q ∧
          ∀ e' ∈ notas.filter (matchesStudent aluno trimestre), e'.disciplina = d →
            (e'.nota).isSome = true → e'.timestamp ≤ e.timestamp) ds sel ∧
        (compute_student_average notas aluno trimestre).2 = ds.length ∧
        (ds = [] → (compute_student_average notas aluno trimestre).1 = none) ∧
        (ds ≠ [] → (compute_student_average notas aluno trimestre).1 =
          some (sel.sum / (sel.length : ℚ)))) ∧
    compute_student_average exEntries "X" "1º Trimestre" = (some (15/2), 2) := by
  refine ⟨student_average_spec, ?_⟩
  simp [compute_student_average, exEntries, matchesStudent, List.mergeSort, List.merge,
    tsLe, latestNota, List.dedup, List.filter, List.filterMap, List.getLast?]
  norm_num

/-- C1 witness: the worked example evaluates as the amended claim states. -/
theorem C1_witness :
    compute_student_average exEntries "X" "1º Trimestre" = (some (15/2), 2) :=
  C1_mean_of_latest_valid_scores.2

/-- C2: saving a batch with at least one valid entry replaces exactly the
stored entries of the selected (term, subject, class) tuple with the new
batch and leaves every entry of a different tuple unchanged (order and
multiplicity included). -/
theorem C2_save_replaces_tuple (notas : List GradeEntry) (t d tu : String) (now : ℕ)
    (edited : List EditedRow) (h : rowsToSave t d tu now edited ≠ []) :
    (saveHandler notas t d tu now edited).filter (matchesTuple t d tu) =
      rowsToSave t d tu now edited ∧
    (saveHandler notas t d tu now edited).filter (fun e => !(matchesTuple t d tu e)) =
      notas.filter (fun e => !(matchesTuple t d tu e)) := by
  have hne : ¬ (rowsToSave t d tu now edited).isEmpty := by
    simpa [List.isEmpty_iff] using h
  unfold saveHandler
  rw [if_neg hne]
  constructor
  · rw [List.filter_append]
    have h1 : (notas.filter (fun e => !(matchesTuple t d tu e))).filter
        (matchesTuple t d tu) = [] := by
      apply List.filter_eq_nil_iff.mpr
      intro e he
      have h2 := (List.mem_filter.mp he).2
      simp only [Bool.not_eq_true'] at h2
      simp [h2]
    have h2 : (rowsToSave t d tu now edited).filter (matchesTuple t d tu) =
        rowsToSave t d tu now edited :=
      List.filter_eq_self.mpr (rowsToSave_matches t d tu now edited)
    rw [h1, h2, List.nil_append]
  · rw [List.filter_append]
    have h1 : (notas.filter (fun e => !(matchesTuple t d tu e))).filter
        (fun e => !(matchesTuple t d tu e)) =
        notas.filter (fun e => !(matchesTuple t d tu e)) :=
      List.filter_eq_self.mpr (fun e he => (List.mem_filter.mp he).2)
    have h2 : (rowsToSave t d tu now edited).filter
        (fun e => !(matchesTuple t d tu e)) = [] := by
      apply List.filter_eq_nil_iff.mpr
      intro e he
      simp [rowsToSave_matches t d tu now edited e he]
    rw [h1, h2, List.append_nil]

/-- C2 witness: saving the one-row batch "9" for (1º Trimestre, A, 5A) over
the example store replaces that tuple and keeps the rest. -/
theorem C2_witness :
    (saveHandler exEntries "1º Trimestre" "A" "5A" 99 [⟨"X", some "9"⟩]).filter
      (matchesTuple "1º Trimestre" "A" "5A") =
      rowsToSave "1º Trimestre" "A" "5A" 99 [⟨"X", some "9"⟩] ∧
    (saveHandler exEntries "1º Trimestre" "A" "5A" 99 [⟨"X", some "9"⟩]).filter
      (fun e => !(matchesTuple "1º Trimestre" "A" "5A" e)) =
      exEntries.filter (fun e => !(matchesTuple "1º Trimestre" "A" "5A" e)) :=
  C2_save_replaces_tuple exEntries "1º Trimestre" "A" "5A" 99 [⟨"X", some "9"⟩] (by
    simp [rowsToSave, notasInseridas, processRow, parseFloat, normalizeComma, digitsVal,
      show (0:ℚ) ≤ 9 from by norm_num, show (9:ℚ) ≤ 10 from by norm_num])

/-- C3: a submitted score is persisted iff, after replacing the decimal comma
by a decimal point, it parses as a number in [0, 10]; the persisted entry
carries the parsed value for the named student; a rejected entry is reported
as not-a-number or out-of-range with the student's name; an invalid row in
the middle of a batch is dropped while the rest of the batch still saves;
and "8,5" is accepted as 17/2 = 8.5 while "11" and "-1" are rejected. -/
theorem C3_score_validation :
    (∀ (t d tu : String) (now : ℕ) (aluno s : String),
      (∃ e, processRow t d tu now aluno s = .saved e) ↔
        (∃ q, parseFloat (normalizeComma s) = some q ∧ 0 ≤ q ∧ q ≤ 10)) ∧
    (∀ (t d tu : String) (now : ℕ) (aluno s : String) (e : GradeEntry),
      processRow t d tu now aluno s = .saved e →
        ∃ q, parseFloat (normalizeComma s) = some q ∧ e = ⟨t, d, tu, aluno, some q, now⟩) ∧
    (∀ (t d tu : String) (now : ℕ) (aluno s : String),
      (∀ e, processRow t d tu now aluno s ≠ .saved e) →
        processRow t d tu now aluno s = .notANumber aluno ∨
        ∃ q, parseFloat (normalizeComma s) = some q ∧
          processRow t d tu now aluno s = .outOfRange q aluno) ∧
    (∀ (t d tu : String) (now : ℕ) (pre post : List EditedRow) (al s : String),
      (∀ e, processRow t d tu now al s ≠ .saved e) →
        rowsToSave t d tu now (pre ++ ⟨al, some s⟩ :: post) =
          rowsToSave t d tu now (pre ++ post)) ∧
    processRow "1º Trimestre" "Mat" "5A" 7 "Ana" "8,5" =
      .saved ⟨"1º Trimestre", "Mat", "5A", "Ana", some (17/2), 7⟩ ∧
    processRow "1º Trimestre" "Mat" "5A" 7 "Ana" "11" = .outOfRange 11 "Ana" ∧
    processRow "1º Trimestre" "Mat" "5A" 7 "Ana" "-1" = .outOfRange (-1) "Ana" := by
  refine ⟨?_, ?_, ?_, ?_, ?_, ?_, ?_⟩
  · intro t d tu now aluno s
    constructor
    · rintro ⟨e, he⟩
      rcases processRow_cases t d tu now aluno s with ⟨q, hpf, h0, h10, hpr⟩ |
        ⟨q, hpf, hr, hpr⟩ | ⟨hpf, hpr⟩
      · exact ⟨q, hpf, h0, h10⟩
      · rw [hpr] at he; cases he
      · rw [hpr] at he; cases he
    · rintro ⟨q, hpf, h0, h10⟩
      rcases processRow_cases t d tu now aluno s with ⟨q', hpf', h0', h10', hpr⟩ |
        ⟨q', hpf', hr', hpr⟩ | ⟨hpf', hpr⟩
      · exact ⟨_, hpr⟩
      · rw [hpf] at hpf'
        cases hpf'
        exact absurd ⟨h0, h10⟩ hr'
      · rw [hpf] at hpf'
        cases hpf'
  · intro t d tu now aluno s e he
    rcases processRow_cases t d tu now aluno s with ⟨q, hpf, h0, h10, hpr⟩ |
      ⟨q, hpf, hr, hpr⟩ | ⟨hpf, hpr⟩
    · rw [hpr] at he
      cases he
      exact ⟨q, hpf, rfl⟩
    · rw [hpr] at he; cases he
    · rw [hpr] at he; cases he
  · intro t d tu now aluno s h
    rcases processRow_cases t d tu now aluno s with ⟨q, hpf, h0, h10, hpr⟩ |
      ⟨q, hpf, hr, hpr⟩ | ⟨hpf, hpr⟩
    · exact absurd hpr (h _)
    · exact Or.inr ⟨q, hpf, hpr⟩
    · exact Or.inl hpr
  · intro t d tu now pre post al s h
    rw [rowsToSave_append, rowsToSave_append, rowsToSave_cons_invalid t d tu now al s post h]
  · simp [processRow, parseFloat, normalizeComma, digitsVal]
    try norm_num
  · simp [processRow, parseFloat, normalizeComma, digitsVal]
    try norm_num
  · simp [processRow, parseFloat, normalizeComma, digitsVal]
    try norm_num

/-- C3 witness: the comma-form score "8,5" is accepted and persisted as 8.5. -/
theorem C3_witness :
    processRow "1º Trimestre" "Mat" "5A" 7 "Ana" "8,5" =
      .saved ⟨"1º Trimestre", "Mat", "5A", "Ana", some (17/2), 7⟩ :=
  C3_score_validation.2.2.2.2.1

/-- C4: deleting a (term, subject, class) tuple leaves zero entries matching
the tuple, leaves the entries of every other tuple unchanged (order and
multiplicity included), and an entry survives iff it was stored and does not
match the tuple. -/
theorem C4_delete_tuple (notas : List GradeEntry) (t d tu : String) :
    (deleteHandler notas t d tu).filter (matchesTuple t d tu) = [] ∧
    (deleteHandler notas t d tu).filter (fun e => !(matchesTuple t d tu e)) =
      notas.filter (fun e => !(matchesTuple t d tu e)) ∧
    ∀ e, e ∈ deleteHandler notas t d tu ↔ e ∈ notas ∧ matchesTuple t d tu e = false := by
  refine ⟨?_, ?_, ?_⟩
  · apply List.filter_eq_nil_iff.mpr
    intro e he
    have h2 := (List.mem_filter.mp he).2
    simp only [Bool.not_eq_true'] at h2
    simp [h2]
  · exact List.filter_eq_self.mpr (fun e he => (List.mem_filter.mp he).2)
  · intro e
    unfold deleteHandler
    rw [List.mem_filter]
    simp

/-- C5 counterexample: the score the aggregation uses for the one subject of
`exStale2` is 9, carried by the entry with timestamp 10, yet the entry with
the maximum timestamp (20) holds an unparseable score — so the selected
entry is not one with the maximum submitted timestamp. -/
theorem C5_counterexample :
    compute_student_average exStale2 "Y" "1º Trimestre" = (some 9, 1) ∧
    ∀ e ∈ exStale2, (∀ e' ∈ exStale2, e'.timestamp ≤ e.timestamp) → e.nota ≠ some 9 := by
  constructor
  · simp [compute_student_average, exStale2, matchesStudent, List.mergeSort, List.merge,
      tsLe, latestNota, List.dedup, List.filter, List.filterMap, List.getLast?]
  · rintro e he hmax
    simp only [exStale2, List.mem_cons, List.not_mem_nil, or_false] at he
    rcases he with rfl | rfl
    · have h20 := hmax ⟨"1º Trimestre", "M", "5A", "Y", none, 20⟩ (by simp [exStale2])
      simp at h20
    · simp

/-- C5 (amended): the score the aggregation selects for a subject group is
the score of an entry of the group with a valid (parseable) score whose
timestamp is maximal among the group's valid-score entries — not necessarily
among all entries, since `groupby(...).last()` skips null scores; the
selection is a pure function of the stored table, hence deterministic.
(The claim's "last in store order" tie rule is dropped: pandas'
`sort_values` default quicksort is not documented stable, so the source does
not warrant any particular tie order on equal timestamps.) -/
theorem C5_selected_is_latest_valid (flt : List GradeEntry) (d : String) (q : ℚ)
    (h : latestNota (flt.mergeSort tsLe) d = some q) :
    ∃ e, e ∈ flt ∧ e.disciplina = d ∧ e.nota = some q ∧
      ∀ e' ∈ flt, e'.disciplina = d → (e'.nota).isSome = true →
        e'.timestamp ≤ e.timestamp :=
  latestNota_max flt d q h

/-- C5 witness: on the worked example the selected score 8 of subject A comes
from its timestamp-2 entry, maximal among A's valid entries. -/
theorem C5_witness :
    ∃ e, e ∈ exEntries ∧ e.disciplina = "A" ∧ e.nota = some 8 ∧
      ∀ e' ∈ exEntries, e'.disciplina = "A" → (e'.nota).isSome = true →
        e'.timestamp ≤ e.timestamp :=
  C5_selected_is_latest_valid exEntries "A" 8 (by
    simp [exEntries, List.mergeSort, List.merge, tsLe, latestNota, List.filter,
      List.filterMap, List.getLast?])

/-- C6: when no entry of the student and term carries a valid score
(including the case of no matching entries at all) the aggregation returns
mean absent (not zero) and count 0. -/
theorem C6_zero_subjects_absent (notas : List GradeEntry) (aluno trimestre : String)
    (h : ∀ e ∈ notas, matchesStudent aluno trimestre e = true → e.nota = none) :
    compute_student_average notas aluno trimestre = (none, 0) := by
  set flt := notas.filter (matchesStudent aluno trimestre) with hflt
  have hnone : ∀ e ∈ flt, e.nota = none := by
    intro e he
    rcases List.mem_filter.mp he with ⟨hmem, hm⟩
    exact h e hmem hm
  by_cases hE : flt.isEmpty
  · unfold compute_student_average
    rw [← hflt, if_pos hE]
  · set srt := flt.mergeSort tsLe with hsrt
    set vals := ((srt.map (fun e => e.disciplina)).dedup).filterMap (latestNota srt)
      with hvals
    have hres : compute_student_average notas aluno trimestre =
        if vals.isEmpty then (none, 0)
        else (some (vals.sum / (vals.length : ℚ)), vals.length) := by
      unfold compute_student_average
      rw [← hflt, if_neg hE]
    have hv : vals.isEmpty := by
      rw [List.isEmpty_iff, hvals]
      apply List.filterMap_eq_nil_iff.mpr
      intro d _
      exact (latestNota_eq_none_iff srt d).mpr (fun e he _ =>
        hnone e ((List.mergeSort_perm flt tsLe).mem_iff.mp he))
    rw [hres, if_pos hv]

/-- C6 witness: a student whose only matching entry has an unparseable score
gets mean absent and count 0. -/
theorem C6_witness :
    compute_student_average [⟨"1º Trimestre", "A", "5A", "Z", none, 1⟩] "Z" "1º Trimestre" =
      (none, 0) :=
  C6_zero_subjects_absent _ "Z" "1º Trimestre" (by
    intro e he
    simp only [List.mem_cons, List.not_mem_nil, or_false] at he
    subst he
    intro _
    rfl)

/-- C7: the class report has exactly one row per roster student of the class
(original names preserved), its rows are ordered by accent-stripped student
name, each row is the `mkAverage` of its student; and "Éder" strips to
"Eder", so it sorts before "Fabio". -/
theorem C7_class_report_sorted :
    (∀ (notas : List GradeEntry) (roster : List Student) (trimestre turma : String),
      ((compute_class_report notas roster trimestre turma).map (fun av => av.aluno)).Perm
        ((roster.filter (fun st => st.turma == turma)).map (fun st => st.aluno)) ∧
      List.Pairwise (fun a b => remover_acentos a ≤ remover_acentos b)
        ((compute_class_report notas roster trimestre turma).map (fun av => av.aluno)) ∧
      ∀ av ∈ compute_class_report notas roster trimestre turma,
        av = mkAverage notas trimestre turma av.aluno) ∧
    remover_acentos "Éder" = "Eder" ∧
    ((compute_class_report [] [⟨"5A", "Fabio"⟩, ⟨"5A", "Éder"⟩] "1º Trimestre" "5A").map
      (fun av => av.aluno)) = ["Éder", "Fabio"] := by
  have hnames : ∀ (notas : List GradeEntry) (roster : List Student)
      (trimestre turma : String),
      (compute_class_report notas roster trimestre turma).map (fun av => av.aluno) =
      ((roster.filter (fun st => st.turma == turma)).map (fun st => st.aluno)).mergeSort
        nameLe := by
    intro notas roster trimestre turma
    unfold compute_class_report
    rw [List.map_map]
    exact List.map_id _
  refine ⟨?_, by simp [remover_acentos, stripAccent], ?_⟩
  · intro notas roster trimestre turma
    refine ⟨?_, ?_, ?_⟩
    · rw [hnames]
      exact List.mergeSort_perm _ _
    · rw [hnames]
      exact (List.sorted_mergeSort nameLe_trans nameLe_total _).imp
        (fun h => by simpa [nameLe] using h)
    · intro av hav
      unfold compute_class_report at hav
      rcases List.mem_map.mp hav with ⟨a, -, rfl⟩
      rfl
  · rw [hnames]
    have hff : nameLe "Fabio" "Éder" = false := by
      simp only [nameLe, decide_eq_false_iff_not]
      rw [show remover_acentos "Fabio" = "Fabio" from by simp [remover_acentos, stripAccent],
          show remover_acentos "Éder" = "Eder" from by simp [remover_acentos, stripAccent]]
      simp
      decide
    simp [List.mergeSort, List.merge, hff]

/-- C7 witness: the concrete two-student roster sorts "Éder" before "Fabio". -/
theorem C7_witness :
    ((compute_class_report [] [⟨"5A", "Fabio"⟩, ⟨"5A", "Éder"⟩] "1º Trimestre" "5A").map
      (fun av => av.aluno)) = ["Éder", "Fabio"] :=
  C7_class_report_sorted.2.2

/-- C8: the school report covers every roster row regardless of class (one
`mkAverage` row each) and is ordered primarily by the class string and
secondarily by accent-stripped student name. -/
theorem C8_school_report_sorted (notas : List GradeEntry) (roster : List Student)
    (trimestre : String) :
    (compute_school_report notas roster trimestre).Perm
      (roster.map (fun st => mkAverage notas trimestre st.turma st.aluno)) ∧
    List.Pairwise (fun a b => a.turma < b.turma ∨
      (a.turma = b.turma ∧ remover_acentos a.aluno ≤ remover_acentos b.aluno))
      (compute_school_report notas roster trimestre) := by
  constructor
  · exact List.mergeSort_perm _ _
  · exact (List.sorted_mergeSort schoolLe_trans schoolLe_total _).imp
      (fun h => by simpa [schoolLe] using h)

/-- C9: when every stored entry carries a valid score within [0, 10], any
mean the aggregation returns lies within [0, 10]. -/
theorem C9_mean_in_range (notas : List GradeEntry) (aluno trimestre : String) (m : ℚ)
    (hvalid : ∀ e ∈ notas, ∃ q, e.nota = some q ∧ 0 ≤ q ∧ q ≤ 10)
    (hm : (compute_student_average notas aluno trimestre).1 = some m) :
    0 ≤ m ∧ m ≤ 10 := by
  set flt := notas.filter (matchesStudent aluno trimestre) with hflt
  by_cases hE : flt.isEmpty
  · have hres : compute_student_average notas aluno trimestre = (none, 0) := by
      unfold compute_student_average
      rw [← hflt, if_pos hE]
    rw [hres] at hm
    simp at hm
  · set srt := flt.mergeSort tsLe with hsrt
    set vals := ((srt.map (fun e => e.disciplina)).dedup).filterMap (latestNota srt)
      with hvals
    have hres : compute_student_average notas aluno trimestre =
        if vals.isEmpty then (none, 0)
        else (some (vals.sum / (vals.length : ℚ)), vals.length) := by
      unfold compute_student_average
      rw [← hflt, if_neg hE]
    rw [hres] at hm
    by_cases hv : vals.isEmpty
    · rw [if_pos hv] at hm
      simp at hm
    · rw [if_neg hv] at hm
      have hm' : vals.sum / (vals.length : ℚ) = m := by simpa using hm
      have hq : ∀ q ∈ vals, 0 ≤ q ∧ q ≤ 10 := by
        intro q hqv
        rcases List.mem_filterMap.mp hqv with ⟨d, -, hd⟩
        rcases latestNota_max flt d q (by exact hd) with ⟨e, hmem, -, hnota, -⟩
        rcases hvalid e (List.mem_of_mem_filter hmem) with ⟨q', hq', h0, h10⟩
        rw [hnota] at hq'
        cases hq'
        exact ⟨h0, h10⟩
      have hlenpos : 0 < vals.length :=
        List.length_pos.mpr (fun hnil => hv (List.isEmpty_iff.mpr hnil))
      have hsum0 : 0 ≤ vals.sum := List.sum_nonneg (fun x hx => (hq x hx).1)
      have hsum10 : vals.sum ≤ (vals.length : ℚ) * 10 := by
        have := List.sum_le_card_nsmul vals 10 (fun x hx => (hq x hx).2)
        simpa [nsmul_eq_mul] using this
      have hlenQ : (0 : ℚ) < (vals.length : ℚ) := by exact_mod_cast hlenpos
      constructor
      · rw [← hm']
        exact div_nonneg hsum0 (le_of_lt hlenQ)
      · rw [← hm']
        rw [div_le_iff₀ hlenQ]
        linarith

/-- C9 witness: the worked example's mean 15/2 lies within [0, 10]. -/
theorem C9_witness : (0 : ℚ) ≤ 15/2 ∧ (15/2 : ℚ) ≤ 10 :=
  C9_mean_in_range exEntries "X" "1º Trimestre" (15/2)
    (by
      intro e he
      simp only [exEntries, List.mem_cons, List.not_mem_nil, or_false] at he
      rcases he with rfl | rfl | rfl
      · exact ⟨5, rfl, by norm_num, by norm_num⟩
      · exact ⟨8, rfl, by norm_num, by norm_num⟩
      · exact ⟨7, rfl, by norm_num, by norm_num⟩)
    (by
      simp [compute_student_average, exEntries, matchesStudent, List.mergeSort, List.merge,
        tsLe, latestNota, List.dedup, List.filter, List.filterMap, List.getLast?]
      norm_num)

/-- C10: when every submitted row fails validation (the set of rows to save
is empty), the save handler leaves the stored table completely unchanged —
in particular the selected tuple is not replaced by an empty batch. -/
theorem C10_all_invalid_noop (notas : List GradeEntry) (t d tu : String) (now : ℕ)
    (edited : List EditedRow)
    (h : ∀ p ∈ notasInseridas edited, ∀ e, processRow t d tu now p.1 p.2 ≠ .saved e) :
    saveHandler notas t d tu now edited = notas := by
  have hrows : rowsToSave t d tu now edited = [] := by
    apply List.filterMap_eq_nil_iff.mpr
    intro p hp
    cases hr : processRow t d tu now p.1 p.2 with
    | saved e => exact absurd hr (h p hp e)
    | outOfRange q a => rfl
    | notANumber a => rfl
  unfold saveHandler
  rw [hrows]
  rfl

/-- C10 witness: a batch whose single row holds the out-of-range score "11"
leaves the example store untouched. -/
theorem C10_witness :
    saveHandler exEntries "1º Trimestre" "A" "5A" 99 [⟨"X", some "11"⟩] = exEntries :=
  C10_all_invalid_noop exEntries "1º Trimestre" "A" "5A" 99 [⟨"X", some "11"⟩] (by
    intro p hp e
    simp only [notasInseridas, List.filterMap_cons, List.filterMap_nil, Option.map_some',
      List.mem_cons, List.not_mem_nil, or_false] at hp
    subst hp
    simp [processRow, parseFloat, digitsVal, normalizeComma,
      show ¬((11:ℚ) ≤ 10) from by norm_num])

end Avaliacao
